import Mathlib

/-!
Verification development for the basketball court booking bot.

The definitions below are a shallow embedding of the repository's
JavaScript sources:

* `src/src/parser.js` — `MessageParser.parseTimeRange`, `_to24h`,
  `_to12hLabel`, `formatDateForBooking`;
* `src/unnamed/part_001` — the two `CourtReserveBooker` classes:
  `_buildTimeMatchData`, `_slotMatchesTime`, `_unavailableMatchesTime`,
  `checkAvailability`'s classification, `_navigateSchedulerToDate`,
  `_buildDatePatterns`, `_dateTextMatches`, `_getSlotStatus`, and the
  bounded retry wrappers `bookCourt` / `checkAvailability`.

JavaScript regular expressions are embedded as executable character-list
matchers that implement exactly the finitely many concrete patterns the
code builds (greedy quantifiers with backtracking, leftmost search,
case-insensitivity where the `i` flag is present, the negative lookbehind
`(?<!to\s)`, and word boundaries `\b`).  JS `\s` is modelled by the ASCII
whitespace characters that can occur in the scraped texts; JS `\d` is
`[0-9]`; JS `\w` is `[A-Za-z0-9_]`.
-/

/-- ASCII lower-casing of a single character (JS `toLowerCase` restricted
to the ASCII letters that the embedded patterns can meet). -/
def asciiLower (c : Char) : Char :=
  if 'A' ≤ c ∧ c ≤ 'Z' then Char.ofNat (c.toNat + 32) else c

/-- Case-insensitive character comparison (the `i` regex flag). -/
def charIEq (a b : Char) : Bool :=
  asciiLower a = asciiLower b

/-- JS `\s` (restricted to ASCII whitespace). -/
def wsChar (c : Char) : Bool :=
  c = ' ' || c = '\t' || c = '\n' || c = '\r'

/-- Maximal munch for `\s*`. -/
def skipWs : List Char → List Char
  | c :: cs => if wsChar c then skipWs cs else c :: cs
  | [] => []

/-- JS `\w` word characters `[A-Za-z0-9_]`. -/
def wordChar (c : Char) : Bool :=
  ('a' ≤ c && c ≤ 'z') || ('A' ≤ c && c ≤ 'Z') || c.isDigit || c = '_'

/-- Value of a digit string, as `parseInt` computes it on the all-digit
captures produced by the patterns below. -/
def digitsToNat (cs : List Char) : Nat :=
  cs.foldl (fun n c => n * 10 + (c.toNat - 48)) 0

/-- Case-sensitive literal match at the head of the input; returns the
rest of the input on success. -/
def litMatch : List Char → List Char → Option (List Char)
  | [], cs => some cs
  | _ :: _, [] => none
  | l :: ls, c :: cs => if l = c then litMatch ls cs else none

/-- Case-insensitive literal match at the head of the input. -/
def litIMatch : List Char → List Char → Option (List Char)
  | [], cs => some cs
  | _ :: _, [] => none
  | l :: ls, c :: cs => if charIEq l c then litIMatch ls cs else none

/-- Case-sensitive substring search (JS `String.includes` / an unflagged
regex made of literal characters). -/
def containsS (lit : List Char) : List Char → Bool
  | [] => (litMatch lit []).isSome
  | c :: rest => (litMatch lit (c :: rest)).isSome || containsS lit rest

/-- Case-insensitive substring search. -/
def containsI (lit : List Char) : List Char → Bool
  | [] => (litIMatch lit []).isSome
  | c :: rest => (litIMatch lit (c :: rest)).isSome || containsI lit rest

/-! ## parseTimeRange (src/src/parser.js lines 121–152)

The regex
`/(\d{1,2})(?::(\d{2}))?\s*-\s*(\d{1,2})(?::(\d{2}))?\s*([ap])m?/i`
is embedded as an explicit backtracking matcher: greedy `\d{1,2}`
(two digits tried before one), greedy optional `(?::(\d{2}))?`, leftmost
search over start positions, and the trailing `m?` (which constrains
nothing).  `Caps` holds the five capture groups. -/

structure Caps where
  sh : List Char
  sm : Option (List Char)
  eh : List Char
  em : Option (List Char)
  per : Char
deriving DecidableEq, Repr

/-- Exactly two leading digits (`(\d{2})`, and the longer alternative of
`(\d{1,2})`). -/
def take2 : List Char → Option (List Char × List Char)
  | c1 :: c2 :: rest =>
    if c1.isDigit && c2.isDigit then some ([c1, c2], rest) else none
  | _ => none

/-- Exactly one leading digit (the shorter alternative of `(\d{1,2})`). -/
def take1 : List Char → Option (List Char × List Char)
  | c :: rest => if c.isDigit then some ([c], rest) else none
  | _ => none

/-- The final `([ap])` (case-insensitive); `m?` after it is vacuous. -/
def isPeriodChar (c : Char) : Bool :=
  c = 'a' || c = 'A' || c = 'p' || c = 'P'

/-- Tail of the pattern: `\s*([ap])m?`. -/
def tail3 (sh : List Char) (sm : Option (List Char)) (eh : List Char)
    (em : Option (List Char)) (cs : List Char) : Option Caps :=
  match skipWs cs with
  | c :: _ => if isPeriodChar c then some ⟨sh, sm, eh, em, c⟩ else none
  | [] => none

/-- `(?::(\d{2}))?\s*([ap])m?` after the end hour: greedy optional colon
group, falling back to the absent branch on failure. -/
def tail2 (sh : List Char) (sm : Option (List Char)) (eh : List Char)
    (cs : List Char) : Option Caps :=
  match (match cs with
         | ':' :: cs2 =>
           (match take2 cs2 with
            | some (mm, cs3) => tail3 sh sm eh (some mm) cs3
            | none => none)
         | _ => none) with
  | some r => some r
  | none => tail3 sh sm eh none cs

/-- End hour as a single digit, then the rest of the pattern. -/
def ehOne (sh : List Char) (sm : Option (List Char)) (cs : List Char) :
    Option Caps :=
  match take1 cs with
  | some (eh, cs4) => tail2 sh sm eh cs4
  | none => none

/-- `\s*-\s*(\d{1,2})…`: the separator, then the greedy end hour with
backtracking from two digits to one. -/
def tailFrom (sh : List Char) (sm : Option (List Char)) (cs : List Char) :
    Option Caps :=
  match skipWs cs with
  | '-' :: cs2 =>
    (match take2 (skipWs cs2) with
     | some (eh, cs4) =>
       (match tail2 sh sm eh cs4 with
        | some r => some r
        | none => ehOne sh sm (skipWs cs2))
     | none => ehOne sh sm (skipWs cs2))
  | _ => none

/-- `(?::(\d{2}))?` after the start hour, then the rest of the pattern. -/
def afterH1 (sh : List Char) (cs : List Char) : Option Caps :=
  match (match cs with
         | ':' :: cs2 =>
           (match take2 cs2 with
            | some (mm, cs3) => tailFrom sh (some mm) cs3
            | none => none)
         | _ => none) with
  | some r => some r
  | none => tailFrom sh none cs

/-- Start hour as a single digit, then the rest of the pattern. -/
def shOne (cs : List Char) : Option Caps :=
  match take1 cs with
  | some (sh, cs1) => afterH1 sh cs1
  | none => none

/-- Attempt the whole pattern anchored at the current position. -/
def matchAt (cs : List Char) : Option Caps :=
  match take2 cs with
  | some (sh, cs1) =>
    (match afterH1 sh cs1 with
     | some r => some r
     | none => shOne cs)
  | none => shOne cs

/-- Leftmost regex search (JS `String.match` without the `g` flag). -/
def searchMatch : List Char → Option Caps
  | [] => matchAt []
  | c :: rest =>
    match matchAt (c :: rest) with
    | some r => some r
    | none => searchMatch rest

/-- `_to24h` (parser.js lines 159–165). -/
def to24h (hour12 : Nat) (period : Char) : Nat :=
  if period = 'a' then
    (if hour12 = 12 then 0 else hour12)
  else
    (if hour12 = 12 then 12 else hour12 + 12)

/-- `_to12hLabel` (parser.js lines 170–174). -/
def to12hLabel (hour24 : Nat) (min : String) : String :=
  let amPm := if hour24 ≥ 12 then "PM" else "AM"
  let hour12 := if hour24 = 0 then 12 else if hour24 > 12 then hour24 - 12 else hour24
  toString hour12 ++ ":" ++ min ++ " " ++ amPm

/-- `String.padStart(2, '0')`. -/
def padStart2 (s : String) : String :=
  if s.length ≥ 2 then s else "0" ++ s

/-- `match[5].toLowerCase()` restricted to the characters `([ap])` can
capture. -/
def lowerMarker (c : Char) : Char :=
  if c = 'A' then 'a' else if c = 'P' then 'p' else c

/-- The record `parseTimeRange` returns.  `startTime`/`endTime`/
`startDisplay`/`endDisplay` are the four fields of the JS object;
`startHour24`/`endHour24`/`startMin`/`endMin` are the function's local
variables of the same names, kept so the spec's data-model invariants can
be stated. -/
structure TimeRange where
  startHour24 : Nat
  startMin : String
  endHour24 : Nat
  endMin : String
  startTime : String
  endTime : String
  startDisplay : String
  endDisplay : String
deriving DecidableEq, Repr

/-- Body of `parseTimeRange` after a successful regex match
(parser.js lines 127–151). -/
def buildTimeRange (caps : Caps) : TimeRange :=
  let startHour := digitsToNat caps.sh
  let startMin : String := match caps.sm with
    | some m => String.mk m
    | none => "00"
  let endHour := digitsToNat caps.eh
  let endMin : String := match caps.em with
    | some m => String.mk m
    | none => "00"
  let period := lowerMarker caps.per
  let endHour24 := to24h endHour period
  let startShared := to24h startHour period
  let startHour24 :=
    if startShared ≥ endHour24 then
      to24h startHour (if period = 'p' then 'a' else 'p')
    else startShared
  { startHour24 := startHour24
    startMin := startMin
    endHour24 := endHour24
    endMin := endMin
    startTime := padStart2 (toString startHour24) ++ ":" ++ startMin
    endTime := padStart2 (toString endHour24) ++ ":" ++ endMin
    startDisplay := to12hLabel startHour24 startMin
    endDisplay := to12hLabel endHour24 endMin }

/-- `parseTimeRange` (parser.js lines 121–152): `null` on regex failure,
otherwise the converted range. -/
def parseTimeRange (timeString : String) : Option TimeRange :=
  match searchMatch timeString.data with
  | none => none
  | some caps => some (buildTimeRange caps)

/-- Helper for stating claims over the spec's `"H-Hp"`/`"H-Ha"` input
family. -/
def rangeStr (h1 h2 : Nat) (marker : String) : String :=
  toString h1 ++ "-" ++ toString h2 ++ marker

/-! ## `_buildTimeMatchData` and its four regexes (part_001 lines 214–264)

`strictStartTimeRegex` is
`(?:^|[^\d])(?<!to\s)${displayHour}:${startMin}\s*${amPm}` with the `i`
flag; `exactTimeRegex` is `^\s*${displayHour}:${startMin}\s*${amPm}\s*$`;
`urlDisplayPattern` is `%20${displayHour}:${startMin}%20${amPm}`;
`url24hPattern` is `%20${startHour24}:${startMin}(?:%20|&|$)`. -/

/-- The literal fragment `${displayHour}:${startMin}`. -/
def coreLit (dh : Nat) (mins : String) : List Char :=
  (toString dh).data ++ ':' :: mins.data

/-- `${displayHour}:${startMin}\s*${amPm}` starting at the current
position (case-insensitive). -/
def coreAfter (core ampm : List Char) (cs : List Char) : Bool :=
  match litIMatch core cs with
  | some rest => (litIMatch ampm (skipWs rest)).isSome
  | none => false

/-- The negative lookbehind `(?<!to\s)` (case-insensitive): `p2`, `p1`
are the two characters before the one just consumed by `[^\d]`, `c` the
consumed character itself — the three characters ending at the match
position. -/
def lookTo (p2 p1 : Option Char) (c : Char) : Bool :=
  (match p2 with | some x => charIEq x 't' | none => false)
  && (match p1 with | some x => charIEq x 'o' | none => false)
  && wsChar c

/-- Leftmost search for `(?:^|[^\d])(?<!to\s)` followed by the core:
`atStart` marks offset 0 (where the `^` alternative applies and the
lookbehind has no text to inspect). -/
def strictScan (core ampm : List Char) (p2 p1 : Option Char)
    (atStart : Bool) : List Char → Bool
  | [] => if atStart then coreAfter core ampm [] else false
  | c :: rest =>
    (if atStart then coreAfter core ampm (c :: rest) else false)
    || ((!c.isDigit && !(lookTo p2 p1 c)) && coreAfter core ampm rest)
    || strictScan core ampm p1 (some c) false rest

/-- `strictStartTimeRegex.test` — the start-time-only pattern guarded
against matching the end time of a displayed range. -/
def strictStartTest (dh : Nat) (mins ampm : String) (s : String) : Bool :=
  strictScan (coreLit dh mins) ampm.data none none true s.data

/-- `exactTimeRegex.test` — the whole (trimmed) field is exactly the
display label. -/
def exactTimeTest (dh : Nat) (mins ampm : String) (s : String) : Bool :=
  match litIMatch (coreLit dh mins) (skipWs s.data) with
  | some rest =>
    (match litIMatch ampm.data (skipWs rest) with
     | some rest2 => (skipWs rest2).isEmpty
     | none => false)
  | none => false

/-- `urlDisplayPattern.test` — `%20${displayHour}:${startMin}%20${amPm}`
anywhere in the field. -/
def urlDisplayTest (dh : Nat) (mins ampm : String) (s : String) : Bool :=
  containsI ("%20".data ++ coreLit dh mins ++ "%20".data ++ ampm.data) s.data

/-- `(?:%20|&|$)` after the 24-hour fragment. -/
def termOk : List Char → Bool
  | [] => true
  | '&' :: _ => true
  | '%' :: '2' :: '0' :: _ => true
  | _ => false

/-- Search for the 24-hour literal followed by `(?:%20|&|$)`. -/
def url24Scan (lit : List Char) : List Char → Bool
  | [] => (match litIMatch lit [] with
           | some rest => termOk rest
           | none => false)
  | c :: rest =>
    (match litIMatch lit (c :: rest) with
     | some r => termOk r
     | none => false)
    || url24Scan lit rest

/-- `url24hPattern.test` — `%20${startHour24}:${startMin}(?:%20|&|$)`. -/
def url24hTest (h24 : Nat) (mins : String) (s : String) : Bool :=
  url24Scan ("%20".data ++ (toString h24).data ++ ':' :: mins.data) s.data

/-- JS truthiness of a string field (`if (field && …)`). -/
def truthy (s : String) : Bool := !s.isEmpty

/-- `String.split(':')[0]`. -/
def idx0Colon (cs : List Char) : List Char :=
  cs.takeWhile (fun c => c != ':')

/-- `String.split(':')[1]` (`none` when there is no colon). -/
def idx1Colon (cs : List Char) : Option (List Char) :=
  match cs.dropWhile (fun c => c != ':') with
  | _ :: rest => some (rest.takeWhile (fun c => c != ':'))
  | [] => none

/-- The bundle `_buildTimeMatchData` returns; the four regexes are
represented by the tests above applied to these fields. -/
structure TimeMatchData where
  startHour24 : Nat
  displayHour : Nat
  amPm : String
  startMin : String
  timeLabel : String
deriving DecidableEq, Repr

/-- `_buildTimeMatchData` (part_001 lines 214–264): parses
`timeRange.startTime`, converts 24h → 12h display form with the
`0 → 12` and `> 12 → −12` rules. -/
def buildTimeMatchData (tr : TimeRange) : TimeMatchData :=
  let s := tr.startTime.data
  let startHour24 := digitsToNat (idx0Colon s)
  let startMin : String := match idx1Colon s with
    | some m => if m.isEmpty then "00" else String.mk m
    | none => "00"
  let displayHour :=
    if startHour24 = 0 then 12
    else if startHour24 > 12 then startHour24 - 12
    else startHour24
  let amPm := if startHour24 ≥ 12 then "PM" else "AM"
  { startHour24 := startHour24
    displayHour := displayHour
    amPm := amPm
    startMin := startMin
    timeLabel := toString displayHour ++ ":" ++ startMin ++ " " ++ amPm }

/-! ## SlotCandidate / UnavailableIndicator matching (part_001 lines 346–473) -/

/-- One scraped reserve-button record (`_getAllSlotButtons`); the purely
diagnostic attributes (`className`, `tagName`, `allAttrs`) play no role
in matching and are omitted. -/
structure SlotRec where
  index : Nat
  ariaLabel : String
  dataHref : String
  href : String
  onclick : String
  text : String
  parentAriaLabel : String
  parentDataTime : String
  parentDataHref : String
deriving DecidableEq, Repr

/-- One scraped "none available" indicator record
(`_getAllUnavailableSlots`). -/
structure UnavailRec where
  dataTime : String
  parentAriaLabel : String
  parentDataTime : String
  text : String
deriving DecidableEq, Repr

/-- `_slotMatchesTime` (part_001 lines 415–440): URL channels, then
aria-labels with the strict start-time pattern, then the exact parent
`data-time`, then visible text. -/
def slotMatchesTime (slotData : SlotRec) (md : TimeMatchData) : Bool :=
  ([slotData.dataHref, slotData.href, slotData.parentDataHref, slotData.onclick].any
    (fun u => truthy u
      && (urlDisplayTest md.displayHour md.startMin md.amPm u
          || url24hTest md.startHour24 md.startMin u)))
  || ([slotData.ariaLabel, slotData.parentAriaLabel].any
      (fun l => truthy l && strictStartTest md.displayHour md.startMin md.amPm l))
  || (truthy slotData.parentDataTime
      && exactTimeTest md.displayHour md.startMin md.amPm slotData.parentDataTime)
  || (truthy slotData.text
      && strictStartTest md.displayHour md.startMin md.amPm slotData.text)

/-- `_unavailableMatchesTime` (part_001 lines 451–473): exact match on
`dataTime` and `parentDataTime`, strict start-time pattern on
`parentAriaLabel`, then the URL-encoded channels on all three fields. -/
def unavailableMatchesTime (unavailData : UnavailRec) (md : TimeMatchData) : Bool :=
  (truthy unavailData.dataTime
    && exactTimeTest md.displayHour md.startMin md.amPm unavailData.dataTime)
  || (truthy unavailData.parentDataTime
      && exactTimeTest md.displayHour md.startMin md.amPm unavailData.parentDataTime)
  || (truthy unavailData.parentAriaLabel
      && strictStartTest md.displayHour md.startMin md.amPm unavailData.parentAriaLabel)
  || ([unavailData.dataTime, unavailData.parentAriaLabel, unavailData.parentDataTime].any
      (fun f => truthy f
        && (urlDisplayTest md.displayHour md.startMin md.amPm f
            || url24hTest md.startHour24 md.startMin f)))

/-- Tri-state verdict (plus the `error` status `checkAvailability`
returns when an attempt throws). -/
inductive Status where
  | available
  | unavailable
  | unknown
  | errorStatus
deriving DecidableEq, Repr

/-- The classification core of `checkAvailability` (part_001 lines
694–713): unavailable indicators first, then reserve buttons, else
unknown. -/
def classifySlots (unavailableSlots : List UnavailRec) (allSlots : List SlotRec)
    (md : TimeMatchData) : Status :=
  if unavailableSlots.any (fun s => unavailableMatchesTime s md) then .unavailable
  else if allSlots.any (fun s => slotMatchesTime s md) then .available
  else .unknown

/-- Step 8 of `bookCourt` (part_001 lines 520–542): scan `allSlots` in
scraped document order, record the first match's `index`, stop; `-1`
when nothing matches. -/
def findTargetSlotIndex (allSlots : List SlotRec) (md : TimeMatchData) : Int :=
  match allSlots.find? (fun slot => slotMatchesTime slot md) with
  | some slot => (slot.index : Int)
  | none => -1

/-! ## `_getSlotStatus` (part_001 lines 931–976)

The second `CourtReserveBooker` class's in-page classifier.  Its regexes
carry no `i` flag: `exactHourRegex` is `\b${displayHour}:00 ${amPm}\b`,
`exactHourUrlRegex` is `%20${displayHour}:00%20${amPm}`,
`exact24hUrlRegex` is `%20${targetHour24}:00%20`. -/

/-- Word-boundary test before the literal (`\b` with the literal starting
in a word character). -/
def boundaryOkBefore : Option Char → Bool
  | none => true
  | some c => !(wordChar c)

/-- Word-boundary test after the literal (`\b` with the literal ending in
a word character). -/
def wbAfterOk : List Char → Bool
  | [] => true
  | c :: _ => !(wordChar c)

/-- Search for `\b<lit>\b` (case-sensitive), tracking the previous
character for the left boundary. -/
def wbScan (lit : List Char) (prev : Option Char) : List Char → Bool
  | [] =>
    boundaryOkBefore prev
      && (match litMatch lit [] with
          | some rest => wbAfterOk rest
          | none => false)
  | c :: rest =>
    (boundaryOkBefore prev
      && (match litMatch lit (c :: rest) with
          | some r => wbAfterOk r
          | none => false))
    || wbScan lit (some c) rest

/-- `\b<lit>\b` anywhere in the string. -/
def wordBoundTest (lit : List Char) (s : String) : Bool :=
  wbScan lit none s.data

/-- `_getSlotStatus`'s display hour: `targetHour24 > 12 ? −12 : id`
(note: no `0 → 12` mapping here, unlike `_buildTimeMatchData`). -/
def statusDisplayHour (h24 : Nat) : Nat :=
  if h24 > 12 then h24 - 12 else h24

/-- `_getSlotStatus`'s AM/PM marker. -/
def statusAmPm (h24 : Nat) : String :=
  if h24 ≥ 12 then "PM" else "AM"

/-- The literal inside `exactHourRegex`. -/
def exactHourLit (h24 : Nat) : List Char :=
  (toString (statusDisplayHour h24)).data ++ (":00 ").data ++ (statusAmPm h24).data

/-- The literal of `exactHourUrlRegex`. -/
def exactHourUrlLit (h24 : Nat) : List Char :=
  ("%20").data ++ (toString (statusDisplayHour h24)).data
    ++ (":00%20").data ++ (statusAmPm h24).data

/-- The literal of `exact24hUrlRegex`. -/
def exact24hUrlLit (h24 : Nat) : List Char :=
  ("%20").data ++ (toString h24).data ++ (":00%20").data

/-- One reserve button as read by `_getSlotStatus` (aria-label and
data-href only). -/
structure ReserveBtnRec where
  ariaLabel : String
  dataHref : String
deriving DecidableEq, Repr

/-- The six-way test applied to each "none available" slot
(part_001 lines 943–958). -/
def unavailHit (h24 : Nat) (slot : UnavailRec) : Bool :=
  wordBoundTest (exactHourLit h24) slot.dataTime
  || wordBoundTest (exactHourLit h24) slot.parentAriaLabel
  || wordBoundTest (exactHourLit h24) slot.parentDataTime
  || containsS (exactHourUrlLit h24) slot.dataTime.data
  || containsS (exactHourUrlLit h24) slot.parentAriaLabel.data
  || containsS (exactHourUrlLit h24) slot.parentDataTime.data

/-- The three-way test applied to each reserve button
(part_001 lines 961–973). -/
def reserveHit (h24 : Nat) (btn : ReserveBtnRec) : Bool :=
  wordBoundTest (exactHourLit h24) btn.ariaLabel
  || containsS (exactHourUrlLit h24) btn.dataHref.data
  || containsS (exact24hUrlLit h24) btn.dataHref.data

/-- `_getSlotStatus` (part_001 lines 931–976): first matching
unavailable indicator → `unavailable`; otherwise first matching reserve
button → `available`; otherwise `unknown`. -/
def getSlotStatus (noneAvailable : List UnavailRec)
    (reserveButtons : List ReserveBtnRec) (targetHour24 : Nat) : Status :=
  if noneAvailable.any (unavailHit targetHour24) then .unavailable
  else if reserveButtons.any (reserveHit targetHour24) then .available
  else .unknown

/-! ## `_navigateSchedulerToDate` (part_001 lines 120–160)

The directed navigation loop reads the toolbar text, returns as soon as
one of the `_buildDatePatterns` substrings occurs in it, otherwise clicks
the next/previous step button (the direction heuristic of lines 139–140
only selects which of the two buttons is clicked; control flow depends
only on whether that click throws) and, if the click throws, breaks out
of the loop.  The environment is modelled by `readings i` — the toolbar
text `_getSchedulerDateText` returns at iteration `i` — and `clickOk i`
— whether iteration `i`'s step-click succeeds.  The JS loop
`for (attempts = 0; attempts < 90; attempts++)` is run with fuel 90. -/

/-- `MONTH_NAMES` (part_001 lines 11–12). -/
def MONTH_NAMES : List String :=
  ["January", "February", "March", "April", "May", "June",
   "July", "August", "September", "October", "November", "December"]

/-- A JS `Date`'s calendar components (`getFullYear`, `getMonth` —
0-based — and `getDate`). -/
structure TargetDate where
  year : Nat
  month : Nat
  day : Nat
deriving DecidableEq, Repr

/-- `_buildDatePatterns` (part_001 lines 171–185). -/
def buildDatePatterns (gameDate : TargetDate) : List String :=
  let day := toString gameDate.day
  let monthName := MONTH_NAMES.getD gameDate.month ""
  let monthShort := String.mk (monthName.data.take 3)
  let year := toString gameDate.year
  [ monthName ++ " " ++ day ++ ", " ++ year,
    monthName ++ " " ++ day ++ " " ++ year,
    monthShort ++ " " ++ day ++ ", " ++ year,
    monthName ++ " " ++ day ++ ",",
    monthShort ++ " " ++ day ++ "," ]

/-- `_dateTextMatches` (part_001 lines 188–190): substring acceptance
against any pattern. -/
def dateTextMatches (text : String) (patterns : List String) : Bool :=
  patterns.any (fun p => containsS p.data text.data)

/-- How one run of the navigation loop ends: toolbar text matched at
iteration `attempts`; a step-click threw at iteration `attempts` (the
`break` of line 155); or all 90 iterations ran without a match (the
fall-through of line 159).  The last two are the degraded "could not
confirm" outcomes — the function returns normally in every case. -/
inductive NavResult where
  | confirmed (attempts : Nat)
  | clickFailed (attempts : Nat)
  | exhausted
deriving DecidableEq, Repr

/-- The body of the `for` loop, with `fuel = 90 - attempts`. -/
def navGo (readings : Nat → String) (clickOk : Nat → Bool)
    (patterns : List String) : Nat → Nat → NavResult
  | _, 0 => .exhausted
  | attempts, fuel + 1 =>
    if dateTextMatches (readings attempts) patterns then .confirmed attempts
    else if clickOk attempts then navGo readings clickOk patterns (attempts + 1) fuel
    else .clickFailed attempts

/-- `_navigateSchedulerToDate` (part_001 lines 120–160). -/
def navigateSchedulerToDate (readings : Nat → String) (clickOk : Nat → Bool)
    (gameDate : TargetDate) : NavResult :=
  navGo readings clickOk (buildDatePatterns gameDate) 0 90

/-! ## The bounded retry wrappers (part_001 lines 979–1003 and 1119–1143)

Both `bookCourt` and `checkAvailability` of the second class run
`for (attempt = 1; attempt <= MAX_RETRIES; attempt++)`; on attempts
after the first they call `close()` then `initialize()` before re-running
the attempt body, and when the final attempt throws they return a
non-thrown failure outcome built from the last error message.  The
attempt body (`_doBookCourt` / `_doCheckAvailability`, including the
re-initialization that precedes it inside the same `try`) is modelled as
an oracle `run : Nat → Except String α`; the session lifecycle is
recorded as a trace of `SessionEvent`s. -/

/-- Session-lifecycle events of one orchestrated operation. -/
inductive SessionEvent where
  | attemptRun (n : Nat)
  | closeSession
  | initSession
deriving DecidableEq, Repr

/-- `MAX_RETRIES` (part_001 line 754). -/
def MAX_RETRIES : Nat := 2

/-- The retry loop from attempt number `attempt`, with
`remaining = MAX_RETRIES - attempt` further attempts allowed after this
one (`remaining = 0` is the `attempt === MAX_RETRIES` case). -/
def retryGo {α : Type} (run : Nat → Except String α) (onExhaust : String → α)
    (attempt remaining : Nat) : α × List SessionEvent :=
  let pre : List SessionEvent :=
    if attempt > 1 then [.closeSession, .initSession] else []
  match run attempt with
  | .ok r => (r, pre ++ [.attemptRun attempt])
  | .error msg =>
    match remaining with
    | 0 => (onExhaust msg, pre ++ [.attemptRun attempt])
    | rem + 1 =>
      let rest := retryGo run onExhaust (attempt + 1) rem
      (rest.1, pre ++ [.attemptRun attempt] ++ rest.2)
termination_by remaining

/-- The booking outcome object: `success`, the `alreadyBooked` flag, the
user-facing `message` and the caught `error` message (screenshot paths,
pure diagnostics, are omitted). -/
structure BookingOutcome where
  success : Bool
  alreadyBooked : Bool := false
  message : Option String := none
  errorMsg : Option String := none
deriving DecidableEq, Repr

/-- The availability outcome object (screenshot path omitted). -/
structure AvailOutcome where
  status : Status
  timeLabel : Option String := none
  errorMsg : Option String := none
deriving DecidableEq, Repr

/-- `bookCourt` (part_001 lines 979–1003): two attempts, teardown and
re-initialization before the retry, `{success: false, error}` after the
last failure. -/
def bookCourtOrch (run : Nat → Except String BookingOutcome) :
    BookingOutcome × List SessionEvent :=
  retryGo run (fun msg => { success := false, errorMsg := some msg }) 1 (MAX_RETRIES - 1)

/-- `checkAvailability` (part_001 lines 1119–1143): same loop, returning
`{status: 'error', error}` after the last failure. -/
def checkAvailabilityOrch (run : Nat → Except String AvailOutcome) :
    AvailOutcome × List SessionEvent :=
  retryGo run (fun msg => { status := .errorStatus, errorMsg := some msg }) 1 (MAX_RETRIES - 1)

/-! ## `formatDateForBooking` (parser.js lines 100–107)

A JS `Date` value is modelled by its calendar components plus the
milliseconds elapsed since that day's midnight; for in-range components
(the only ones these claims involve — JS `Date` field normalization is
out of scope) the JS `<` comparison of epoch milliseconds is the
lexicographic order on `(year, month, day, msOfDay)`. -/

/-- A JS `Date` instant. -/
structure JsDateTime where
  year : Nat
  month0 : Nat
  day : Nat
  msOfDay : Nat
deriving DecidableEq, Repr

/-- `gameDate < now` on JS `Date`s with in-range components. -/
def dtLtB (a b : JsDateTime) : Bool :=
  decide (a.year < b.year
    ∨ (a.year = b.year
       ∧ (a.month0 < b.month0
          ∨ (a.month0 = b.month0
             ∧ (a.day < b.day ∨ (a.day = b.day ∧ a.msOfDay < b.msOfDay))))))

/-- `formatDateForBooking` (parser.js lines 100–107): build the date at
midnight of the current year, compare against the full `now` instant,
and bump the year when it is strictly earlier. -/
def formatDateForBooking (month day : Nat) (now : JsDateTime) : JsDateTime :=
  let currentYear := now.year
  let gameDate : JsDateTime := ⟨currentYear, month - 1, day, 0⟩
  if dtLtB gameDate now then ⟨currentYear + 1, month - 1, day, 0⟩ else gameDate

/-! ## Invariant predicates from the spec's data model -/

/-- The spec's minute-field invariant: a two-character digit string whose
value is at most 59 (leading zeros preserved by construction, since the
field is the captured text itself). -/
def minuteOk (m : String) : Prop :=
  m.data.length = 2 ∧ (∀ c ∈ m.data, c.isDigit = true) ∧ digitsToNat m.data ≤ 59

/-- Shape of a minute capture group: absent, or exactly two digits. -/
def minShape : Option (List Char) → Prop
  | none => True
  | some m => ∃ a b, m = [a, b] ∧ a.isDigit = true ∧ b.isDigit = true

/-! ## Concrete scraped records used in the claim instances -/

/-- The range-shaped parent aria-label from the comment on
`_unavailableMatchesTime` (part_001 line 454). -/
def rangeLabel : String := "null on Friday, March 6, 2026 at 9:00 PM to 10:00 PM"

/-- An unavailable indicator whose only populated field is the
range-shaped parent label. -/
def rangeIndicator : UnavailRec := ⟨"", rangeLabel, "", ""⟩

/-- The parsed 9–10 PM range (as `parseTimeRange "9-10p"` produces). -/
def nineRange : TimeRange :=
  ⟨21, "00", 22, "00", "21:00", "22:00", "9:00 PM", "10:00 PM"⟩

/-- The parsed 10–11 PM range (as `parseTimeRange "10-11p"` produces). -/
def tenRange : TimeRange :=
  ⟨22, "00", 23, "00", "22:00", "23:00", "10:00 PM", "11:00 PM"⟩

/-- An indicator carrying the 9 PM start time in its `data-time` field. -/
def pmIndicator : UnavailRec := ⟨"9:00 PM", "", "", ""⟩

/-- A reserve button whose aria-label names the 9 PM start time. -/
def pmButton : ReserveBtnRec := ⟨"Reserve at 9:00 PM", ""⟩

/-- A scraped slot record with no populated fields (matches nothing). -/
def blankSlot : SlotRec := ⟨0, "", "", "", "", "", "", "", ""⟩

/-- A scraped slot record at index 1 whose parent `data-time` is
"9:00 PM". -/
def pmSlot : SlotRec := ⟨1, "", "", "", "", "", "", "9:00 PM", ""⟩

/-! # Theorems -/

/-! ## Structural facts about the regex captures -/

/-- A successful `take2` returns exactly two digit characters. -/
theorem take2_shape {cs m rest : List Char} (h : take2 cs = some (m, rest)) :
    ∃ a b, m = [a, b] ∧ a.isDigit = true ∧ b.isDigit = true := by
  cases cs with
  | nil => simp [take2] at h
  | cons c1 t =>
    cases t with
    | nil => simp [take2] at h
    | cons c2 cs' =>
      simp only [take2] at h
      split at h
      · rename_i hd
        simp only [Option.some.injEq, Prod.mk.injEq] at h
        obtain ⟨h1, -⟩ := h
        subst h1
        simp only [Bool.and_eq_true] at hd
        exact ⟨c1, c2, rfl, hd.1, hd.2⟩
      · cases h

/-- `tail3` copies the minute captures it is given. -/
theorem tail3_caps {sh eh : List Char} {sm em : Option (List Char)}
    {cs : List Char} {caps : Caps} (h : tail3 sh sm eh em cs = some caps) :
    caps.sm = sm ∧ caps.em = em := by
  unfold tail3 at h
  split at h
  · split at h
    · injection h with h'
      subst h'
      exact ⟨rfl, rfl⟩
    · cases h
  · cases h

/-- `tail2` copies the start-minute capture and produces an end-minute
capture that is absent or exactly two digits. -/
theorem tail2_caps {sh eh : List Char} {sm : Option (List Char)}
    {cs : List Char} {caps : Caps} (h : tail2 sh sm eh cs = some caps) :
    caps.sm = sm ∧ minShape caps.em := by
  unfold tail2 at h
  split at h
  · rename_i r heq
    injection h with h'
    subst h'
    split at heq
    · split at heq
      · rename_i mm cs3 htake
        obtain ⟨h1, h2⟩ := tail3_caps heq
        refine ⟨h1, ?_⟩
        rw [h2]
        obtain ⟨a, b, hm, ha, hb⟩ := take2_shape htake
        exact ⟨a, b, hm, ha, hb⟩
      · cases heq
    · cases heq
  · obtain ⟨h1, h2⟩ := tail3_caps h
    refine ⟨h1, ?_⟩
    rw [h2]
    trivial

/-- Single-digit end-hour branch: same capture facts as `tail2`. -/
theorem ehOne_caps {sh : List Char} {sm : Option (List Char)}
    {cs : List Char} {caps : Caps} (h : ehOne sh sm cs = some caps) :
    caps.sm = sm ∧ minShape caps.em := by
  unfold ehOne at h
  split at h
  · exact tail2_caps h
  · cases h

/-- Everything after the separator: same capture facts as `tail2`. -/
theorem tailFrom_caps {sh : List Char} {sm : Option (List Char)}
    {cs : List Char} {caps : Caps} (h : tailFrom sh sm cs = some caps) :
    caps.sm = sm ∧ minShape caps.em := by
  unfold tailFrom at h
  split at h
  · split at h
    · split at h
      · rename_i r heq
        injection h with h'
        subst h'
        exact tail2_caps heq
      · exact ehOne_caps h
    · exact ehOne_caps h
  · cases h

/-- After the start hour both minute captures are absent or exactly two
digits. -/
theorem afterH1_caps {sh : List Char} {cs : List Char} {caps : Caps}
    (h : afterH1 sh cs = some caps) :
    minShape caps.sm ∧ minShape caps.em := by
  unfold afterH1 at h
  split at h
  · rename_i r heq
    injection h with h'
    subst h'
    split at heq
    · split at heq
      · rename_i mm cs3 htake
        obtain ⟨h1, h2⟩ := tailFrom_caps heq
        refine ⟨?_, h2⟩
        rw [h1]
        obtain ⟨a, b, hm, ha, hb⟩ := take2_shape htake
        exact ⟨a, b, hm, ha, hb⟩
      · cases heq
    · cases heq
  · obtain ⟨h1, h2⟩ := tailFrom_caps h
    refine ⟨?_, h2⟩
    rw [h1]
    trivial

/-- Single-digit start-hour branch. -/
theorem shOne_caps {cs : List Char} {caps : Caps}
    (h : shOne cs = some caps) : minShape caps.sm ∧ minShape caps.em := by
  unfold shOne at h
  split at h
  · exact afterH1_caps h
  · cases h

/-- An anchored match has well-shaped minute captures. -/
theorem matchAt_caps {cs : List Char} {caps : Caps}
    (h : matchAt cs = some caps) : minShape caps.sm ∧ minShape caps.em := by
  unfold matchAt at h
  split at h
  · split at h
    · rename_i r heq
      injection h with h'
      subst h'
      exact afterH1_caps heq
    · exact shOne_caps h
  · exact shOne_caps h

/-- Any successful search has well-shaped minute captures. -/
theorem searchMatch_caps : ∀ {cs : List Char} {caps : Caps},
    searchMatch cs = some caps → minShape caps.sm ∧ minShape caps.em := by
  intro cs
  induction cs with
  | nil =>
    intro caps h
    exact matchAt_caps h
  | cons c rest ih =>
    intro caps h
    simp only [searchMatch] at h
    split at h
    · rename_i r heq
      injection h with h'
      subst h'
      exact matchAt_caps heq
    · exact ih h

/-- `_to24h` stays within a day for display hours 1–12, for either
period character. -/
theorem to24h_le23 {h : Nat} (h1 : 1 ≤ h) (h2 : h ≤ 12) (p : Char) :
    to24h h p ≤ 23 := by
  unfold to24h
  split <;> split <;> omega

/-! ## C2, C9, C1, C8 — the time-range parser -/

/-- C2: `parseTimeRange` reproduces the twelve-o'clock and period-flip
rules on the spec's edge cases — "12-2p" gives 12:00/"12:00 PM" (never
24:00) to 14:00/"2:00 PM"; "11-1p" gives 11:00/"11:00 AM" (flip applied)
to 13:00/"1:00 PM"; "9-11p" gives 21:00 to 23:00 with no flip. -/
theorem c2_edge_cases :
    parseTimeRange "12-2p" =
      some ⟨12, "00", 14, "00", "12:00", "14:00", "12:00 PM", "2:00 PM"⟩
    ∧ parseTimeRange "11-1p" =
      some ⟨11, "00", 13, "00", "11:00", "13:00", "11:00 AM", "1:00 PM"⟩
    ∧ parseTimeRange "9-11p" =
      some ⟨21, "00", 23, "00", "21:00", "23:00", "9:00 PM", "11:00 PM"⟩ :=
  ⟨by decide, by decide, by decide⟩

/-- C9: contrary to the claim (and to the examples listed in
`parseTimeRange`'s own doc comment), an input with an explicit period
marker on both halves, such as "11a-1p", does not parse at all — the
regex requires the hyphen to follow the first hour's digits (after
optional `:MM` and whitespace), so the `a` blocks every match and the
function returns `null`. -/
theorem c9_double_marker_fails : parseTimeRange "11a-1p" = none := by decide

/-- C1 fails on the code: "11-1a" is a valid "H-Ha" input with both
hours in 1..12, yet the parser returns start 23:00 and end 1:00 — the
period flip maps the start hour to PM, producing an inverted range
rather than `startHour24 < endHour24`. -/
theorem c1_counterexample :
    (parseTimeRange "11-1a").map (fun r => (r.startHour24, r.endHour24)) = some (23, 1)
    ∧ ¬(23 < 1) :=
  ⟨by decide, by decide⟩

/-- C1 (amended): for every "H1-H2p" input with hours in 1..12 the
parsed range satisfies `startHour24 < endHour24`; for "H1-H2a" inputs
this holds exactly when the shared-AM reading already places the start
strictly before the end (when the flip fires on an "a" input, the start
is mapped to PM and the range comes out inverted). -/
theorem c1_amended : ∀ h1 h2 : Nat, 1 ≤ h1 → h1 ≤ 12 → 1 ≤ h2 → h2 ≤ 12 →
    (∃ r, parseTimeRange (rangeStr h1 h2 "p") = some r
      ∧ r.startHour24 < r.endHour24)
    ∧ (∃ r, parseTimeRange (rangeStr h1 h2 "a") = some r
      ∧ (r.startHour24 < r.endHour24 ↔ to24h h1 'a' < to24h h2 'a')) := by
  intro h1 h2 hl1 hu1 hl2 hu2
  interval_cases h1 <;> interval_cases h2 <;>
    exact ⟨⟨_, rfl, by decide⟩, ⟨_, rfl, by decide⟩⟩

/-- Witness for C1 (amended) at the spec's example "9-11p"/"9-11a". -/
theorem c1_amended_witness :
    (∃ r, parseTimeRange (rangeStr 9 11 "p") = some r
      ∧ r.startHour24 < r.endHour24)
    ∧ (∃ r, parseTimeRange (rangeStr 9 11 "a") = some r
      ∧ (r.startHour24 < r.endHour24 ↔ to24h 9 'a' < to24h 11 'a')) :=
  c1_amended 9 11 (by decide) (by decide) (by decide) (by decide)

/-- C8 fails on the code: the regex accepts "13-14p" (both captured
hours outside 1..12), and `_to24h` then produces `startHour24 = 25` and
`endHour24 = 26`, violating the `0 ≤ hour ≤ 23` invariant. -/
theorem c8_counterexample :
    (parseTimeRange "13-14p").map (fun r => (r.startHour24, r.endHour24)) = some (25, 26)
    ∧ ¬(26 ≤ 23) :=
  ⟨by decide, by decide⟩

/-- C8 (amended): for every accepted input whose captured hours lie in
1..12 and whose captured minutes (when present) are at most 59, the
constructed `TimeRange` satisfies the data-model invariant — both hours
in 0..23 and both minute fields two-character digit strings between
"00" and "59" preserving leading zeros. -/
theorem c8_invariant : ∀ (s : String) (caps : Caps),
    searchMatch s.data = some caps →
    1 ≤ digitsToNat caps.sh → digitsToNat caps.sh ≤ 12 →
    1 ≤ digitsToNat caps.eh → digitsToNat caps.eh ≤ 12 →
    (∀ m, caps.sm = some m → digitsToNat m ≤ 59) →
    (∀ m, caps.em = some m → digitsToNat m ≤ 59) →
    ∃ r, parseTimeRange s = some r
      ∧ r.startHour24 ≤ 23 ∧ r.endHour24 ≤ 23
      ∧ minuteOk r.startMin ∧ minuteOk r.endMin := by
  intro s caps hsearch hsh1 hsh2 heh1 heh2 hsm hem
  obtain ⟨hshape_sm, hshape_em⟩ := searchMatch_caps hsearch
  refine ⟨buildTimeRange caps, ?_, ?_, ?_, ?_, ?_⟩
  · unfold parseTimeRange
    rw [hsearch]
  · show (buildTimeRange caps).startHour24 ≤ 23
    simp only [buildTimeRange]
    split
    · exact to24h_le23 hsh1 hsh2 _
    · exact to24h_le23 hsh1 hsh2 _
  · show (buildTimeRange caps).endHour24 ≤ 23
    simp only [buildTimeRange]
    exact to24h_le23 heh1 heh2 _
  · show minuteOk (buildTimeRange caps).startMin
    simp only [buildTimeRange]
    cases hcs : caps.sm with
    | none => exact ⟨rfl, by decide, by decide⟩
    | some m =>
      rw [hcs] at hshape_sm
      obtain ⟨a, b, hm, ha, hb⟩ := hshape_sm
      subst hm
      refine ⟨rfl, ?_, hsm _ hcs⟩
      show ∀ c ∈ ([a, b] : List Char), c.isDigit = true
      intro c hc
      simp only [List.mem_cons, List.not_mem_nil, or_false] at hc
      rcases hc with rfl | rfl
      · exact ha
      · exact hb
  · show minuteOk (buildTimeRange caps).endMin
    simp only [buildTimeRange]
    cases hcs : caps.em with
    | none => exact ⟨rfl, by decide, by decide⟩
    | some m =>
      rw [hcs] at hshape_em
      obtain ⟨a, b, hm, ha, hb⟩ := hshape_em
      subst hm
      refine ⟨rfl, ?_, hem _ hcs⟩
      show ∀ c ∈ ([a, b] : List Char), c.isDigit = true
      intro c hc
      simp only [List.mem_cons, List.not_mem_nil, or_false] at hc
      rcases hc with rfl | rfl
      · exact ha
      · exact hb

/-- Witness for C8 (amended) at the concrete input "9:30-11:45p". -/
theorem c8_invariant_witness :
    ∃ r, parseTimeRange "9:30-11:45p" = some r
      ∧ r.startHour24 ≤ 23 ∧ r.endHour24 ≤ 23
      ∧ minuteOk r.startMin ∧ minuteOk r.endMin :=
  c8_invariant "9:30-11:45p" ⟨['9'], some ['3', '0'], ['1', '1'], some ['4', '5'], 'p'⟩
    (by decide) (by decide) (by decide) (by decide) (by decide)
    (fun m hm => by injection hm with h; subst h; decide)
    (fun m hm => by injection hm with h; subst h; decide)

/-! ## C3 — the end-time exclusion guard -/

/-- C3: for the unavailable indicator whose parent label is
"null on Friday, March 6, 2026 at 9:00 PM to 10:00 PM",
`_unavailableMatchesTime` matches the 9:00 PM hour (so
`checkAvailability` classifies it `unavailable`), while the strict
start-time pattern rejects the 10:00 PM occurrence because it is
immediately preceded by the word "to" — the label never makes the
10:00 PM hour `unavailable`, whatever slot candidates are present. -/
theorem c3_end_time_guard :
    unavailableMatchesTime rangeIndicator (buildTimeMatchData nineRange) = true
    ∧ classifySlots [rangeIndicator] [] (buildTimeMatchData nineRange) = Status.unavailable
    ∧ unavailableMatchesTime rangeIndicator (buildTimeMatchData tenRange) = false
    ∧ (∀ slots : List SlotRec,
        classifySlots [rangeIndicator] slots (buildTimeMatchData tenRange) ≠ Status.unavailable) := by
  refine ⟨by decide, by decide, by decide, ?_⟩
  intro slots
  have hu : ([rangeIndicator].any fun s => unavailableMatchesTime s (buildTimeMatchData tenRange))
      = false := by decide
  simp only [classifySlots, hu, Bool.false_eq_true, if_false]
  split <;> decide

/-! ## C4 — three-way precedence of `_getSlotStatus` -/

/-- C4: `_getSlotStatus` implements the reference three-way precedence —
any matching unavailable indicator yields `unavailable` regardless of
the reserve buttons; with no matching indicator, a matching reserve
button yields `available`; with neither, the verdict is `unknown`,
never a default to `available` or `unavailable`. -/
theorem c4_precedence : ∀ (inds : List UnavailRec) (btns : List ReserveBtnRec) (h24 : Nat),
    ((∃ u ∈ inds, unavailHit h24 u = true) →
      getSlotStatus inds btns h24 = Status.unavailable)
    ∧ ((∀ u ∈ inds, unavailHit h24 u = false) → (∃ b ∈ btns, reserveHit h24 b = true) →
      getSlotStatus inds btns h24 = Status.available)
    ∧ ((∀ u ∈ inds, unavailHit h24 u = false) → (∀ b ∈ btns, reserveHit h24 b = false) →
      getSlotStatus inds btns h24 = Status.unknown) := by
  intro inds btns h24
  refine ⟨?_, ?_, ?_⟩
  · rintro ⟨u, hu, hhit⟩
    have h1 : inds.any (unavailHit h24) = true := List.any_eq_true.mpr ⟨u, hu, hhit⟩
    simp [getSlotStatus, h1]
  · intro hnone hbtn
    obtain ⟨b, hb, hhit⟩ := hbtn
    have h1 : inds.any (unavailHit h24) = false :=
      List.any_eq_false.mpr (fun u hu => by simp [hnone u hu])
    have h2 : btns.any (reserveHit h24) = true := List.any_eq_true.mpr ⟨b, hb, hhit⟩
    simp [getSlotStatus, h1, h2]
  · intro hnone hbn
    have h1 : inds.any (unavailHit h24) = false :=
      List.any_eq_false.mpr (fun u hu => by simp [hnone u hu])
    have h2 : btns.any (reserveHit h24) = false :=
      List.any_eq_false.mpr (fun b hb => by simp [hbn b hb])
    simp [getSlotStatus, h1, h2]

/-- Witness for C4: an indicator and a button both match 9 PM (hour 21)
and the verdict is `unavailable`. -/
theorem c4_precedence_witness :
    getSlotStatus [pmIndicator] [pmButton] 21 = Status.unavailable :=
  (c4_precedence [pmIndicator] [pmButton] 21).1 ⟨pmIndicator, by simp, by decide⟩

/-! ## C5 — the date resolver -/

/-- C5 fails on the code: with "now" at 10:00 on Feb 24 2026 — the same
calendar day as the input "2/24" — `formatDateForBooking` compares the
midnight construction against the full timestamp, finds it smaller, and
rolls to Feb 24 2027 instead of staying in the current year. -/
theorem c5_counterexample :
    formatDateForBooking 2 24 ⟨2026, 1, 24, 36000000⟩ = ⟨2027, 1, 24, 0⟩
    ∧ (2027 : Nat) ≠ 2026 :=
  ⟨by decide, by decide⟩

/-- C5 (amended): the resolver keeps the requested month and day and
bumps the year exactly when the current-year date at midnight is
strictly before the full "now" instant — time of day included.  In
particular, when "now" falls on the same calendar day as the given M/D
strictly after midnight, the result moves to the next year. -/
theorem c5_amended : ∀ (month day : Nat) (now : JsDateTime),
    ((formatDateForBooking month day now).month0 = month - 1
      ∧ (formatDateForBooking month day now).day = day)
    ∧ ((formatDateForBooking month day now).year = now.year + 1 ↔
        (month - 1 < now.month0
          ∨ (month - 1 = now.month0
             ∧ (day < now.day ∨ (day = now.day ∧ 0 < now.msOfDay)))))
    ∧ (month - 1 = now.month0 → day = now.day → 0 < now.msOfDay →
        (formatDateForBooking month day now).year = now.year + 1) := by
  intro month day now
  obtain ⟨y, mo, d, ms⟩ := now
  simp only [formatDateForBooking]
  split_ifs with hof
  · simp only [dtLtB, decide_eq_true_eq, eq_self_iff_true, true_and] at hof
    refine ⟨⟨rfl, rfl⟩, ?_, fun _ _ _ => rfl⟩
    show y + 1 = y + 1 ↔ _
    omega
  · simp only [dtLtB, decide_eq_true_eq, eq_self_iff_true, true_and] at hof
    refine ⟨⟨rfl, rfl⟩, ?_, ?_⟩
    · show y = y + 1 ↔ _
      omega
    · intro h1 h2 h3
      show y = y + 1
      omega

/-- Witness for C5 (amended): checking "2/24" one millisecond after
midnight on Feb 24 2026 resolves to 2027. -/
theorem c5_amended_witness :
    (formatDateForBooking 2 24 ⟨2026, 1, 24, 1⟩).year = 2026 + 1 :=
  (c5_amended 2 24 ⟨2026, 1, 24, 1⟩).2.2 rfl rfl (by decide)

/-! ## C6 — the bounded retry loop -/

/-- C6: the orchestrator's retry loop runs exactly 2 attempts: a
successful first attempt returns at once; a failing first attempt is
followed by a full session teardown (`close`) and fresh initialization
before attempt 2, whose success yields the successful outcome; when both
attempts throw, `bookCourt` returns (not throws) `success := false` with
the last attempt's error message and `checkAvailability` returns status
`error` with the last attempt's error message — and no further attempt
is run. -/
theorem c6_retry_policy : ∀ (runB : Nat → Except String BookingOutcome)
    (runC : Nat → Except String AvailOutcome)
    (rB : BookingOutcome) (rC : AvailOutcome) (e1 e2 f1 f2 : String),
    (runB 1 = .ok rB → bookCourtOrch runB = (rB, [.attemptRun 1]))
    ∧ (runB 1 = .error e1 → runB 2 = .ok rB →
        bookCourtOrch runB =
          (rB, [.attemptRun 1, .closeSession, .initSession, .attemptRun 2]))
    ∧ (runB 1 = .error e1 → runB 2 = .error e2 →
        bookCourtOrch runB =
          ({ success := false, errorMsg := some e2 },
           [.attemptRun 1, .closeSession, .initSession, .attemptRun 2]))
    ∧ (runC 1 = .error f1 → runC 2 = .ok rC →
        checkAvailabilityOrch runC =
          (rC, [.attemptRun 1, .closeSession, .initSession, .attemptRun 2]))
    ∧ (runC 1 = .error f1 → runC 2 = .error f2 →
        checkAvailabilityOrch runC =
          ({ status := .errorStatus, errorMsg := some f2 },
           [.attemptRun 1, .closeSession, .initSession, .attemptRun 2])) := by
  intro runB runC rB rC e1 e2 f1 f2
  refine ⟨?_, ?_, ?_, ?_, ?_⟩
  · intro h1
    simp [bookCourtOrch, MAX_RETRIES, retryGo, h1]
  · intro h1 h2
    simp [bookCourtOrch, MAX_RETRIES, retryGo, h1, h2]
  · intro h1 h2
    simp [bookCourtOrch, MAX_RETRIES, retryGo, h1, h2]
  · intro h1 h2
    simp [checkAvailabilityOrch, MAX_RETRIES, retryGo, h1, h2]
  · intro h1 h2
    simp [checkAvailabilityOrch, MAX_RETRIES, retryGo, h1, h2]

/-- Witness for C6: both attempts throw and the returned outcome carries
the second attempt's message after the teardown/re-init trace. -/
theorem c6_retry_policy_witness :
    bookCourtOrch (fun n => if n = 1 then .error "nav timeout" else .error "disconnected")
      = ({ success := false, errorMsg := some "disconnected" },
         [.attemptRun 1, .closeSession, .initSession, .attemptRun 2]) :=
  (c6_retry_policy (fun n => if n = 1 then .error "nav timeout" else .error "disconnected")
    (fun _ => .error "x") { success := false } { status := .unknown }
    "nav timeout" "disconnected" "x" "x").2.2.1 rfl rfl

/-! ## C7 — termination of the directed navigation loop -/

/-- A confirmed arrival happens at an iteration inside the window
started at `attempts` with the given fuel. -/
theorem navGo_confirmed_bound : ∀ (fuel a j : Nat) (readings : Nat → String)
    (clickOk : Nat → Bool) (patterns : List String),
    navGo readings clickOk patterns a fuel = NavResult.confirmed j →
    a ≤ j ∧ j < a + fuel := by
  intro fuel
  induction fuel with
  | zero =>
    intro a j r c p h
    simp [navGo] at h
  | succ n ih =>
    intro a j r c p h
    simp only [navGo] at h
    split at h
    · injection h with h'
      omega
    · split at h
      · have := ih (a + 1) j r c p h
        omega
      · cases h
  
/-- A click failure happens at an iteration inside the window. -/
theorem navGo_clickFailed_bound : ∀ (fuel a j : Nat) (readings : Nat → String)
    (clickOk : Nat → Bool) (patterns : List String),
    navGo readings clickOk patterns a fuel = NavResult.clickFailed j →
    a ≤ j ∧ j < a + fuel := by
  intro fuel
  induction fuel with
  | zero =>
    intro a j r c p h
    simp [navGo] at h
  | succ n ih =>
    intro a j r c p h
    simp only [navGo] at h
    split at h
    · cases h
    · split at h
      · have := ih (a + 1) j r c p h
        omega
      · injection h with h'
        omega

/-- When no reading ever matches, the loop never reports a confirmed
arrival. -/
theorem navGo_no_match : ∀ (fuel a : Nat) (readings : Nat → String)
    (clickOk : Nat → Bool) (patterns : List String),
    (∀ i, dateTextMatches (readings i) patterns = false) →
    ∀ j, navGo readings clickOk patterns a fuel ≠ NavResult.confirmed j := by
  intro fuel
  induction fuel with
  | zero =>
    intro a r c p hno j h
    simp [navGo] at h
  | succ n ih =>
    intro a r c p hno j h
    simp only [navGo, hno a, Bool.false_eq_true, if_false] at h
    split at h
    · exact ih (a + 1) r c p hno j h
    · cases h

/-- C7: the directed navigation loop always terminates within the
90-iteration budget — every confirmed arrival and every click-failure
break happens at an iteration below 90, and when no displayed-date
reading ever matches the target's patterns the loop ends in one of the
two degraded outcomes (budget exhausted or click failure) instead of a
confirmed arrival, rather than hanging or failing the operation. -/
theorem c7_nav_termination : ∀ (readings : Nat → String) (clickOk : Nat → Bool)
    (gameDate : TargetDate),
    ((∀ i, dateTextMatches (readings i) (buildDatePatterns gameDate) = false) →
      ∀ j, navigateSchedulerToDate readings clickOk gameDate ≠ NavResult.confirmed j)
    ∧ (∀ j, navigateSchedulerToDate readings clickOk gameDate = NavResult.confirmed j →
        j < 90)
    ∧ (∀ j, navigateSchedulerToDate readings clickOk gameDate = NavResult.clickFailed j →
        j < 90) := by
  intro r c d
  refine ⟨?_, ?_, ?_⟩
  · intro hno j
    exact navGo_no_match 90 0 r c (buildDatePatterns d) hno j
  · intro j h
    have := navGo_confirmed_bound 90 0 j r c (buildDatePatterns d) h
    omega
  · intro j h
    have := navGo_clickFailed_bound 90 0 j r c (buildDatePatterns d) h
    omega

/-- Witness for C7: a surface that always shows an empty toolbar text
and always accepts clicks is never reported as confirmed. -/
theorem c7_nav_termination_witness :
    navigateSchedulerToDate (fun _ => "") (fun _ => true) ⟨2026, 2, 6⟩
      ≠ NavResult.confirmed 0 :=
  (c7_nav_termination (fun _ => "") (fun _ => true) ⟨2026, 2, 6⟩).1
    (fun i => by decide) 0

/-! ## C10 — first matching candidate wins -/

/-- `List.find?` returns the element at the first satisfying position. -/
theorem find_first_position {α : Type} (p : α → Bool) : ∀ (l : List α) (k : Nat)
    (hk : k < l.length),
    p (l.get ⟨k, hk⟩) = true →
    (∀ j (hj : j < k), p (l.get ⟨j, Nat.lt_trans hj hk⟩) = false) →
    l.find? p = some (l.get ⟨k, hk⟩) := by
  intro l
  induction l with
  | nil =>
    intro k hk
    simp at hk
  | cons a t ih =>
    intro k hk hp hprev
    cases k with
    | zero =>
      have hp' : p a = true := hp
      rw [List.find?_cons_of_pos _ hp']
      rfl
    | succ k' =>
      have h0 : p a = false := hprev 0 (Nat.succ_pos k')
      rw [List.find?_cons_of_neg _ (by simp [h0])]
      have hk' : k' < t.length := Nat.lt_of_succ_lt_succ hk
      have hp' : p (t.get ⟨k', hk'⟩) = true := hp
      have hprev' : ∀ j (hj : j < k'), p (t.get ⟨j, Nat.lt_trans hj hk'⟩) = false :=
        fun j hj => hprev (j + 1) (Nat.succ_lt_succ hj)
      exact ih k' hk' hp' hprev'

/-- C10: when the slot at position `k` of the scraped list matches the
target hour and no earlier slot does, `bookCourt`'s scan identifies
exactly that slot's index — the first matching candidate in scraped
document order — and never a later one. -/
theorem c10_first_match : ∀ (allSlots : List SlotRec) (md : TimeMatchData)
    (k : Nat) (hk : k < allSlots.length),
    slotMatchesTime (allSlots.get ⟨k, hk⟩) md = true →
    (∀ j (hj : j < k), slotMatchesTime (allSlots.get ⟨j, Nat.lt_trans hj hk⟩) md = false) →
    findTargetSlotIndex allSlots md = ((allSlots.get ⟨k, hk⟩).index : Int) := by
  intro slots md k hk hmatch hprev
  unfold findTargetSlotIndex
  rw [find_first_position (fun s => slotMatchesTime s md) slots k hk hmatch hprev]

/-- Witness for C10: with a non-matching slot at index 0 and a matching
slot at index 1, the scan picks index 1. -/
theorem c10_first_match_witness :
    findTargetSlotIndex [blankSlot, pmSlot] (buildTimeMatchData nineRange) = 1 :=
  c10_first_match [blankSlot, pmSlot] (buildTimeMatchData nineRange) 1 (by decide)
    (by decide)
    (fun j hj => by
      have hj0 : j = 0 := by omega
      subst hj0
      show slotMatchesTime blankSlot (buildTimeMatchData nineRange) = false
      decide)
